import Mathlib

/-!
Verification of the DockerGym session orchestration engine.

This file gives a shallow embedding of the core of the repository:

* the JSON-value / dict model used by worker responses and init payloads
  (Python dicts become association lists with first-match lookup and
  insert-or-replace assignment);
* the Docker multiplexed stream decoder
  (SessionManager._decode_docker_stream in session_manager.py);
* the session lifecycle state machine of SessionManager (session table,
  slot semaphore, container bookkeeping) in session_manager.py;
* the batch coordinator drain step (batcher.py);
* the HTTP route logic of routes.py (create_session payload synthesis and
  step_session response construction) and the error-code table of errors.py.

Machine integers do not occur: Python ints are unbounded, byte values are
naturals, timestamps are abstract naturals, and JSON numbers are rationals.
Nondeterministic external events (container start and attach outcomes, the
worker response, the random environment choice, the clock) are passed in as
explicit parameters.
-/

namespace DockerGym

/-! ### JSON values and Python dicts -/

/-- Model of a JSON value as carried in worker responses and payloads.
Arrays and nested objects never matter for the verified properties, so the
model keeps strings, numbers, booleans and null. -/
inductive JVal where
  | s (v : String)
  | n (v : ℚ)
  | b (v : Bool)
  | null
  deriving DecidableEq

/-- Python dict with string keys, as an association list in insertion order. -/
abbrev JDict := List (String × JVal)

/-- First-match association-list lookup; models Python dict lookup (keys of a
Python dict are unique, so first match is the match). -/
def alGet {κ α : Type} [DecidableEq κ] : List (κ × α) → κ → Option α
  | [], _ => none
  | (k2, v) :: r, k => if k2 = k then some v else alGet r k

/-- Python dict assignment d[k] = v: replace in place if the key is present,
append otherwise. -/
def alSet {κ α : Type} [DecidableEq κ] : List (κ × α) → κ → α → List (κ × α)
  | [], k, v => [(k, v)]
  | (k2, v2) :: r, k, v => if k2 = k then (k, v) :: r else (k2, v2) :: alSet r k v

/-- Python dict.pop(k, None): drop the entry for k if present. -/
def alPop {κ α : Type} [DecidableEq κ] : List (κ × α) → κ → List (κ × α)
  | [], _ => []
  | (k2, v2) :: r, k => if k2 = k then r else (k2, v2) :: alPop r k

/-- Python dict.get(k): lookup returning None when absent. -/
def dget? (d : JDict) (k : String) : Option JVal := alGet d k

/-- Python dict.get(k, default). -/
def dget (d : JDict) (k : String) (dflt : JVal) : JVal := (dget? d k).getD dflt

/-- Python a.update(b), also the literal with two splats: entries of b
overwrite entries of a, new keys are appended in order. -/
def dictUpdate (a b : JDict) : JDict := b.foldl (fun acc kv => alSet acc kv.1 kv.2) a

/-- Python `x or d` for an optional string x: d when x is None or empty. -/
def pyOrStr (v : Option String) (d : String) : String :=
  match v with
  | some s => if s = "" then d else s
  | none => d

theorem alGet_alSet {κ α : Type} [DecidableEq κ] (l : List (κ × α)) (k k2 : κ) (v : α) :
    alGet (alSet l k v) k2 = if k = k2 then some v else alGet l k2 := by
  induction l with
  | nil => simp [alSet, alGet]
  | cons kv r ih =>
    obtain ⟨k3, v3⟩ := kv
    by_cases h3 : k3 = k
    · subst h3
      by_cases h2 : k3 = k2 <;> simp [alSet, alGet, h2]
    · by_cases h2 : k3 = k2
      · subst h2
        have : ¬ k = k3 := fun h => h3 h.symm
        simp [alSet, alGet, h3, this]
      · simp [alSet, alGet, h3, h2, ih]

theorem alGet_none_dictUpdate (a b : JDict) (k : String)
    (h : alGet b k = none) : alGet (dictUpdate a b) k = alGet a k := by
  induction b generalizing a with
  | nil => simp [dictUpdate]
  | cons kv r ih =>
    obtain ⟨k2, v2⟩ := kv
    by_cases h2 : k2 = k
    · simp [alGet, h2] at h
    · simp only [alGet, if_neg h2] at h
      have : dictUpdate a ((k2, v2) :: r) = dictUpdate (alSet a k2 v2) r := by
        simp [dictUpdate]
      rw [this, ih _ h, alGet_alSet, if_neg h2]

theorem mem_keys_of_alGet_some {κ α : Type} [DecidableEq κ]
    {l : List (κ × α)} {k : κ} {v : α} (h : alGet l k = some v) :
    k ∈ l.map Prod.fst := by
  induction l with
  | nil => simp [alGet] at h
  | cons kv r ih =>
    obtain ⟨k2, v2⟩ := kv
    by_cases h2 : k2 = k
    · simp [h2]
    · simp only [alGet, if_neg h2] at h
      simp [ih h]

theorem alGet_some_dictUpdate (a b : JDict) (k : String) (v : JVal)
    (hnd : (b.map Prod.fst).Nodup) (h : alGet b k = some v) :
    alGet (dictUpdate a b) k = some v := by
  induction b generalizing a with
  | nil => simp [alGet] at h
  | cons kv r ih =>
    obtain ⟨k2, v2⟩ := kv
    have hstep : dictUpdate a ((k2, v2) :: r) = dictUpdate (alSet a k2 v2) r := by
      simp [dictUpdate]
    simp only [List.map_cons, List.nodup_cons] at hnd
    by_cases h2 : k2 = k
    · subst h2
      simp [alGet] at h
      have hr : alGet r k2 = none := by
        cases hget : alGet r k2 with
        | none => rfl
        | some w => exact absurd (mem_keys_of_alGet_some hget) hnd.1
      rw [hstep, alGet_none_dictUpdate _ _ _ hr, alGet_alSet]
      simp [h]
    · simp only [alGet, if_neg h2] at h
      rw [hstep, ih _ hnd.2 h]

/-! ### Extraction of extra response keys (session_manager.py, _extract_info) -/

/-- Standard keys stripped from a worker response when forming info. -/
def standard_keys : List String :=
  ["status", "observation", "reward", "score", "done", "cmd", "env_id"]

/-- Extract extra keys from a worker response into an info dict
(session_manager.py lines 350-353). -/
def _extract_info (response : JDict) : JDict :=
  response.filter (fun kv => decide (kv.1 ∉ standard_keys))

theorem alGet_extract_info (response : JDict) (k : String) :
    alGet (_extract_info response) k =
      if k ∈ standard_keys then none else alGet response k := by
  induction response with
  | nil => simp [_extract_info, alGet]
  | cons kv r ih =>
    obtain ⟨k2, v2⟩ := kv
    by_cases hs : k2 ∈ standard_keys
    · have hfil : _extract_info ((k2, v2) :: r) = _extract_info r := by
        simp [_extract_info, List.filter, hs]
      rw [hfil, ih]
      by_cases hk : k ∈ standard_keys
      · simp [hk]
      · have hne : ¬ k2 = k := fun h => hk (h ▸ hs)
        simp [hk, alGet, hne]
    · have hfil : _extract_info ((k2, v2) :: r) = (k2, v2) :: _extract_info r := by
        simp [_extract_info, List.filter, hs]
      rw [hfil]
      by_cases h2 : k2 = k
      · subst h2
        simp [alGet, hs]
      · simp [alGet, h2, ih]

/-! ### Docker multiplexed stream decoding (session_manager.py lines 208-244)

The decoder is written with an explicit fuel argument (fuel = buffer length)
so that it is structurally recursive and evaluates inside the kernel; the
wrapper fixes the fuel, and a fuel-irrelevance lemma lets proofs step it. -/

/-- Lower bound of the first continuation byte admitted after a UTF-8 lead. -/
def contLo (lead : Nat) : Nat :=
  if lead = 0xE0 then 0xA0 else if lead = 0xF0 then 0x90 else 0x80

/-- Upper bound of the first continuation byte admitted after a UTF-8 lead. -/
def contHi (lead : Nat) : Nat :=
  if lead = 0xED then 0x9F else if lead = 0xF4 then 0x8F else 0xBF

/-- Whether c is a valid first continuation byte for the given lead byte. -/
def isCont1 (lead c : Nat) : Bool := decide (contLo lead ≤ c ∧ c ≤ contHi lead)

/-- Whether c is a valid (second or later) UTF-8 continuation byte. -/
def isCont (c : Nat) : Bool := decide (0x80 ≤ c ∧ c ≤ 0xBF)

/-- Fueled body of utf8Replace below; the fuel only makes the recursion
structural (each step consumes at least one byte, so fuel = length is always
enough). -/
def utf8ReplaceAux : Nat → List Nat → List Nat
  | _, [] => []
  | 0, _ => []
  | fuel + 1, bv :: rest =>
    if bv ≤ 0x7F then bv :: utf8ReplaceAux fuel rest
    else if bv ≤ 0xC1 then 0xFFFD :: utf8ReplaceAux fuel rest
    else if bv ≤ 0xDF then
      match rest with
      | [] => [0xFFFD]
      | c1 :: r1 =>
        if isCont1 bv c1 then ((bv - 0xC0) * 0x40 + (c1 - 0x80)) :: utf8ReplaceAux fuel r1
        else 0xFFFD :: utf8ReplaceAux fuel rest
    else if bv ≤ 0xEF then
      match rest with
      | [] => [0xFFFD]
      | c1 :: r1 =>
        if isCont1 bv c1 then
          match r1 with
          | [] => [0xFFFD]
          | c2 :: r2 =>
            if isCont c2 then
              ((bv - 0xE0) * 0x1000 + (c1 - 0x80) * 0x40 + (c2 - 0x80)) :: utf8ReplaceAux fuel r2
            else 0xFFFD :: utf8ReplaceAux fuel r1
        else 0xFFFD :: utf8ReplaceAux fuel rest
    else if bv ≤ 0xF4 then
      match rest with
      | [] => [0xFFFD]
      | c1 :: r1 =>
        if isCont1 bv c1 then
          match r1 with
          | [] => [0xFFFD]
          | c2 :: r2 =>
            if isCont c2 then
              match r2 with
              | [] => [0xFFFD]
              | c3 :: r3 =>
                if isCont c3 then
                  ((bv - 0xF0) * 0x40000 + (c1 - 0x80) * 0x1000 +
                      (c2 - 0x80) * 0x40 + (c3 - 0x80)) :: utf8ReplaceAux fuel r3
                else 0xFFFD :: utf8ReplaceAux fuel r2
            else 0xFFFD :: utf8ReplaceAux fuel r1
        else 0xFFFD :: utf8ReplaceAux fuel rest
    else 0xFFFD :: utf8ReplaceAux fuel rest

/-- Model of the Python call bytes.decode with utf-8 codec and errors set to
replace: the text is a list of Unicode code points, and each maximal invalid
subpart of the input is replaced by a single U+FFFD, as CPython does
(following the Unicode maximal-subpart recommendation). -/
def utf8Replace (l : List Nat) : List Nat := utf8ReplaceAux l.length l

/-- Big-endian size field of a frame header, int.from_bytes(data[pos+4:pos+8]). -/
def frameSize (s3 s2 s1 s0 : Nat) : Nat := ((s3 * 256 + s2) * 256 + s1) * 256 + s0

/-- Fueled body of SessionManager._decode_docker_stream.  One equation step
per loop iteration of the Python while loop: a full 8-byte header with a
valid stream type and a complete payload consumes the frame and recurses on
the remainder; a stream type outside 0, 1, 2 returns the whole remainder as
raw replaced text; a short header or short payload stops with nothing
consumed. -/
def decodeAux : Nat → List Nat → List Nat × Nat
  | fuel + 1, t :: _h1 :: _h2 :: _h3 :: s3 :: s2 :: s1 :: s0 :: rest =>
    if t = 0 ∨ t = 1 ∨ t = 2 then
      if rest.length < frameSize s3 s2 s1 s0 then ([], 0)
      else
        let size := frameSize s3 s2 s1 s0
        let res := decodeAux fuel (rest.drop size)
        ((if 0 < size ∧ (t = 0 ∨ t = 1) then utf8Replace (rest.take size) else []) ++ res.1,
          8 + size + res.2)
    else
      (utf8Replace (t :: _h1 :: _h2 :: _h3 :: s3 :: s2 :: s1 :: s0 :: rest), 8 + rest.length)
  | _, _ => ([], 0)

/-- Decode Docker multiplexed stream data: returns the decoded text (code
points) and the number of bytes consumed (session_manager.py lines 208-244). -/
def _decode_docker_stream (data : List Nat) : List Nat × Nat :=
  decodeAux data.length data

/-- Fueled check that no frame position of the buffer carrying a full 8-byte
header has a stream-type byte outside 0, 1, 2; that is, the raw-text
fallback branch of the decoder is never taken, on this buffer or any
extension of its unconsumed tail. -/
def framesOkAux : Nat → List Nat → Bool
  | fuel + 1, t :: _h1 :: _h2 :: _h3 :: s3 :: s2 :: s1 :: s0 :: rest =>
    decide (t = 0 ∨ t = 1 ∨ t = 2) &&
      (if rest.length < frameSize s3 s2 s1 s0 then true
       else framesOkAux fuel (rest.drop (frameSize s3 s2 s1 s0)))
  | _, _ => true

/-- Whether every frame position of the buffer with a full header carries a
valid stream-type byte. -/
def framesOk (data : List Nat) : Bool := framesOkAux data.length data

theorem decodeAux_nil (fuel : Nat) : decodeAux fuel [] = ([], 0) := by
  cases fuel <;> rfl

theorem decodeAux_short (fuel : Nat) (l : List Nat) (h : l.length < 8) :
    decodeAux fuel l = ([], 0) := by
  cases fuel with
  | zero => rfl
  | succ f =>
    rcases l with _ | ⟨a0, _ | ⟨a1, _ | ⟨a2, _ | ⟨a3, _ | ⟨a4, _ | ⟨a5, _ | ⟨a6, _ | ⟨a7, r⟩⟩⟩⟩⟩⟩⟩⟩
    all_goals first | rfl | (simp at h; omega)

theorem decodeAux_cons (fuel a0 a1 a2 a3 a4 a5 a6 a7 : Nat) (r : List Nat) :
    decodeAux (fuel + 1) (a0 :: a1 :: a2 :: a3 :: a4 :: a5 :: a6 :: a7 :: r) =
      if a0 = 0 ∨ a0 = 1 ∨ a0 = 2 then
        if r.length < frameSize a4 a5 a6 a7 then ([], 0)
        else
          ((if 0 < frameSize a4 a5 a6 a7 ∧ (a0 = 0 ∨ a0 = 1) then
              utf8Replace (r.take (frameSize a4 a5 a6 a7)) else []) ++
            (decodeAux fuel (r.drop (frameSize a4 a5 a6 a7))).1,
           8 + frameSize a4 a5 a6 a7 + (decodeAux fuel (r.drop (frameSize a4 a5 a6 a7))).2)
      else
        (utf8Replace (a0 :: a1 :: a2 :: a3 :: a4 :: a5 :: a6 :: a7 :: r), 8 + r.length) :=
  rfl

theorem decodeAux_fuel (f1 : Nat) : ∀ (f2 : Nat) (l : List Nat),
    l.length ≤ f1 → l.length ≤ f2 → decodeAux f1 l = decodeAux f2 l := by
  induction f1 with
  | zero =>
    intro f2 l h1 _
    have : l = [] := List.eq_nil_of_length_eq_zero (Nat.le_zero.mp h1)
    subst this
    rw [decodeAux_nil, decodeAux_nil]
  | succ f1 ih =>
    intro f2 l h1 h2
    by_cases hs : l.length < 8
    · rw [decodeAux_short _ _ hs, decodeAux_short _ _ hs]
    · rcases l with _ | ⟨a0, _ | ⟨a1, _ | ⟨a2, _ | ⟨a3, _ | ⟨a4, _ | ⟨a5, _ | ⟨a6, _ | ⟨a7, r⟩⟩⟩⟩⟩⟩⟩⟩
      all_goals try (exfalso; simp at hs; done)
      simp only [List.length_cons] at h1 h2
      cases f2 with
      | zero => omega
      | succ f2 =>
        rw [decodeAux_cons, decodeAux_cons]
        by_cases hv : a0 = 0 ∨ a0 = 1 ∨ a0 = 2
        · rw [if_pos hv, if_pos hv]
          by_cases hc : r.length < frameSize a4 a5 a6 a7
          · rw [if_pos hc, if_pos hc]
          · rw [if_neg hc, if_neg hc]
            have hlen : (r.drop (frameSize a4 a5 a6 a7)).length ≤ f1 := by
              simp only [List.length_drop]
              omega
            have hlen2 : (r.drop (frameSize a4 a5 a6 a7)).length ≤ f2 := by
              simp only [List.length_drop]
              omega
            rw [ih _ _ hlen hlen2]
        · rw [if_neg hv, if_neg hv]

/-! ### Errors (errors.py) -/

/-- The exception classes of errors.py, plus the catch-all of the generic
handler (any unclassified exception maps to INTERNAL_ERROR). -/
inductive SMError where
  | sessionNotFound
  | noSlotsAvailable
  | sessionAlreadyDone
  | containerError
  | internalError
  deriving DecidableEq

/-- Stable error code attached by register_error_handlers (errors.py 41-77). -/
def error_code : SMError → String
  | .sessionNotFound => "SESSION_NOT_FOUND"
  | .noSlotsAvailable => "NO_SLOTS_AVAILABLE"
  | .sessionAlreadyDone => "SESSION_ALREADY_DONE"
  | .containerError => "CONTAINER_ERROR"
  | .internalError => "INTERNAL_ERROR"

/-- HTTP status code attached by register_error_handlers (errors.py 41-77). -/
def http_status : SMError → Nat
  | .sessionNotFound => 404
  | .noSlotsAvailable => 503
  | .sessionAlreadyDone => 409
  | .containerError => 500
  | .internalError => 500

/-! ### Session lifecycle state machine (session_manager.py)

Session ids (uuid4 strings) and container handles are modelled as naturals
drawn from per-state freshness counters; the asyncio semaphore is its
current value (number of free slots); the set of running containers started
by this manager is a list of container handles.  The outcome of the external
world is summarised per call: container start and attach can raise, and the
init exchange yields some worker response envelope. -/

/-- One session table entry (the Session dataclass of session_manager.py,
without the runtime-only lock and read buffers). -/
structure Session where
  session_id : Nat
  container : Nat
  env_id : JVal
  observation : JVal
  info : JDict
  status : String
  created_at : Nat
  last_active_at : Nat
  deriving DecidableEq

/-- The configuration fields of ServerConfig (config.py) that the verified
logic reads. -/
structure ServerConfig where
  max_sessions : Nat
  env_files : List String
  deriving DecidableEq

/-- Manager state: session table (insertion order), semaphore value, running
containers started by this manager, and freshness counters for generated
session ids and container handles. -/
structure SMState where
  sessions : List (Nat × Session)
  sem : Nat
  containers : List Nat
  nextSid : Nat
  nextCid : Nat
  deriving DecidableEq

/-- State at SessionManager construction: empty table, all slots free. -/
def initState (cfg : ServerConfig) : SMState :=
  ⟨[], cfg.max_sessions, [], 0, 0⟩

/-- Outcome of the external effects of one create_session call: container
start raises, attach raises, or the init exchange completes with a worker
response envelope (the channel itself never raises: _send_command_sync
converts exceptions into error envelopes). -/
inductive CreateOutcome where
  | startFail
  | attachFail
  | initResponse (response : JDict)
  deriving DecidableEq

/-- SessionManager.create_session (session_manager.py lines 66-128) as a
state transition.  Control flow mirrors the source: a locked semaphore fails
NoSlotsAvailable before any effect; then the slot is reserved; a start
failure hits the generic except branch, which only releases the slot; an
attach failure likewise releases the slot, leaving the started container
running; a non-ok init response stops the container, drops the table entry,
releases the slot and fails ContainerError; an ok response persists the
observation and extra keys and returns the session. -/
def create_session (cfg : ServerConfig) (init_payload : JDict)
    (outcome : CreateOutcome) (now : Nat) (st : SMState) :
    Except SMError Session × SMState :=
  if st.sem = 0 then (.error .noSlotsAvailable, st)
  else
    let st1 : SMState := { st with sem := st.sem - 1 }
    match outcome with
    | .startFail => (.error .containerError, { st1 with sem := st1.sem + 1 })
    | .attachFail =>
        let st2 := { st1 with
                     containers := st1.containers ++ [st1.nextCid],
                     nextCid := st1.nextCid + 1 }
        (.error .containerError, { st2 with sem := st2.sem + 1 })
    | .initResponse response =>
        let env_id := dget init_payload "env_id" (.s "")
        let session_id := st1.nextSid
        let container := st1.nextCid
        let st2 := { st1 with
                     containers := st1.containers ++ [container],
                     nextCid := container + 1,
                     nextSid := session_id + 1 }
        let session : Session :=
          ⟨session_id, container, env_id, .s "", [], "active", now, now⟩
        let st3 := { st2 with sessions := alSet st2.sessions session_id session }
        if dget? response "status" ≠ some (.s "ok") then
          let st4 := { st3 with
                       containers := st3.containers.erase container,
                       sessions := alPop st3.sessions session_id,
                       sem := st3.sem + 1 }
          (.error .containerError, st4)
        else
          let session2 := { session with
                            observation := dget response "observation" (.s ""),
                            info := _extract_info response }
          let st4 := { st3 with sessions := alSet st3.sessions session_id session2 }
          (.ok session2, st4)

/-- SessionManager.delete_session (session_manager.py lines 278-284): pop the
table entry, stop the container, release the slot. -/
def delete_session (session_id : Nat) (st : SMState) : Except SMError Unit × SMState :=
  match alGet st.sessions session_id with
  | none => (.error .sessionNotFound, st)
  | some session =>
      (.ok (), { st with
                 sessions := alPop st.sessions session_id,
                 containers := st.containers.erase session.container,
                 sem := st.sem + 1 })

/-- In-place mutation of one session object while it sits in the table (the
step route and the drain update status, observation, info and timestamps of
the stored Session without touching the table structure). -/
def touch_session (session_id : Nat) (f : Session → Session) (st : SMState) : SMState :=
  { st with sessions :=
      st.sessions.map (fun kv => if kv.1 = session_id then (kv.1, f kv.2) else kv) }

/-- SessionManager.shutdown (session_manager.py lines 338-347): clear the
table (without releasing slots) and kill all labelled containers. -/
def sm_shutdown (st : SMState) : SMState :=
  { st with sessions := [], containers := [] }

/-- States reachable from a freshly constructed manager by any sequence of
lifecycle operations (create with any payload and any external outcome;
delete with any id, covering client deletes and idle eviction; in-place
session mutation by the step pipeline; shutdown). -/
inductive Reachable (cfg : ServerConfig) : SMState → Prop where
  | init : Reachable cfg (initState cfg)
  | create (payload : JDict) (outcome : CreateOutcome) (now : Nat) (st : SMState) :
      Reachable cfg st → Reachable cfg (create_session cfg payload outcome now st).2
  | delete (sid : Nat) (st : SMState) :
      Reachable cfg st → Reachable cfg (delete_session sid st).2
  | touch (sid : Nat) (f : Session → Session) (st : SMState) :
      Reachable cfg st → Reachable cfg (touch_session sid f st)
  | shutdown (st : SMState) :
      Reachable cfg st → Reachable cfg (sm_shutdown st)

/-- The inductive invariant: table size plus free slots never exceeds the
configured maximum, table keys are distinct and below the session counter,
and running containers are below the container counter. -/
def Inv (cfg : ServerConfig) (st : SMState) : Prop :=
  st.sessions.length + st.sem ≤ cfg.max_sessions ∧
  (∀ k ∈ st.sessions.map Prod.fst, k < st.nextSid) ∧
  (st.sessions.map Prod.fst).Nodup ∧
  (∀ c ∈ st.containers, c < st.nextCid)

theorem alSet_fresh {κ α : Type} [DecidableEq κ] (l : List (κ × α)) (k : κ) (v : α)
    (h : k ∉ l.map Prod.fst) : alSet l k v = l ++ [(k, v)] := by
  induction l with
  | nil => rfl
  | cons kv r ih =>
    obtain ⟨k2, v2⟩ := kv
    simp only [List.map_cons, List.mem_cons] at h
    push_neg at h
    have hne : ¬ k2 = k := fun he => h.1 he.symm
    simp [alSet, hne, ih h.2]

theorem alSet_alSet {κ α : Type} [DecidableEq κ] (l : List (κ × α)) (k : κ) (v v2 : α) :
    alSet (alSet l k v) k v2 = alSet l k v2 := by
  induction l with
  | nil => simp [alSet]
  | cons kv r ih =>
    obtain ⟨k3, v3⟩ := kv
    by_cases h3 : k3 = k
    · simp [alSet, h3]
    · simp [alSet, h3, ih]

theorem alPop_append_fresh {κ α : Type} [DecidableEq κ] (l : List (κ × α)) (k : κ) (v : α)
    (h : k ∉ l.map Prod.fst) : alPop (l ++ [(k, v)]) k = l := by
  induction l with
  | nil => simp [alPop]
  | cons kv r ih =>
    obtain ⟨k2, v2⟩ := kv
    simp only [List.map_cons, List.mem_cons] at h
    push_neg at h
    have hne : ¬ k2 = k := fun he => h.1 he.symm
    simp [alPop, hne, ih h.2]

theorem alPop_sublist {κ α : Type} [DecidableEq κ] (l : List (κ × α)) (k : κ) :
    List.Sublist (alPop l k) l := by
  induction l with
  | nil => simp [alPop]
  | cons kv r ih =>
    obtain ⟨k2, v2⟩ := kv
    by_cases h2 : k2 = k
    · simp [alPop, h2]
    · simp only [alPop, if_neg h2]
      exact ih.cons₂ _

theorem alPop_length {κ α : Type} [DecidableEq κ] (l : List (κ × α)) (k : κ)
    (h : k ∈ l.map Prod.fst) : l.length = (alPop l k).length + 1 := by
  induction l with
  | nil => simp at h
  | cons kv r ih =>
    obtain ⟨k2, v2⟩ := kv
    by_cases h2 : k2 = k
    · simp [alPop, h2]
    · simp only [List.map_cons, List.mem_cons] at h
      have : k ∈ r.map Prod.fst := by
        rcases h with h | h
        · exact absurd h.symm h2
        · exact h
      simp [alPop, h2, ih this]

theorem keys_alSet_fresh {κ α : Type} [DecidableEq κ] (l : List (κ × α)) (k : κ) (v : α)
    (h : k ∉ l.map Prod.fst) :
    (alSet l k v).map Prod.fst = l.map Prod.fst ++ [k] := by
  rw [alSet_fresh _ _ _ h]
  simp

theorem keys_touch (sid : Nat) (f : Session → Session) (st : SMState) :
    (touch_session sid f st).sessions.map Prod.fst = st.sessions.map Prod.fst := by
  simp only [touch_session, List.map_map]
  apply List.map_congr_left
  intro kv _
  by_cases h : kv.1 = sid <;> simp [h]

theorem inv_init (cfg : ServerConfig) : Inv cfg (initState cfg) := by
  refine ⟨?_, ?_, ?_, ?_⟩ <;> simp [initState, Inv]

theorem inv_create (cfg : ServerConfig) (payload : JDict) (outcome : CreateOutcome)
    (now : Nat) (st : SMState) (h : Inv cfg st) :
    Inv cfg (create_session cfg payload outcome now st).2 := by
  obtain ⟨hcount, hkeys, hnodup, hcont⟩ := h
  by_cases hsem : st.sem = 0
  · simpa [create_session, hsem] using ⟨hcount, hkeys, hnodup, hcont⟩
  · have hfreshS : st.nextSid ∉ st.sessions.map Prod.fst := by
      intro hmem
      exact absurd (hkeys _ hmem) (lt_irrefl _)
    have hfreshC : st.nextCid ∉ st.containers := by
      intro hmem
      exact absurd (hcont _ hmem) (lt_irrefl _)
    cases outcome with
    | startFail =>
      simp only [create_session, if_neg hsem]
      refine ⟨?_, hkeys, hnodup, hcont⟩
      show st.sessions.length + (st.sem - 1 + 1) ≤ cfg.max_sessions
      omega
    | attachFail =>
      simp only [create_session, if_neg hsem]
      refine ⟨?_, hkeys, hnodup, ?_⟩
      · show st.sessions.length + (st.sem - 1 + 1) ≤ cfg.max_sessions
        omega
      · show ∀ c ∈ st.containers ++ [st.nextCid], c < st.nextCid + 1
        intro c hc
        rcases List.mem_append.mp hc with hc | hc
        · exact Nat.lt_succ_of_lt (hcont _ hc)
        · simp only [List.mem_singleton] at hc
          omega
    | initResponse response =>
      simp only [create_session, if_neg hsem]
      by_cases hok : dget? response "status" ≠ some (JVal.s "ok")
      · rw [if_pos hok]
        rw [alSet_fresh _ _ _ hfreshS, alPop_append_fresh _ _ _ hfreshS,
          List.erase_append_right _ hfreshC]
        refine ⟨?_, ?_, hnodup, ?_⟩
        · show st.sessions.length + (st.sem - 1 + 1) ≤ cfg.max_sessions
          omega
        · intro k hk
          exact Nat.lt_succ_of_lt (hkeys _ hk)
        · show ∀ c ∈ st.containers ++ List.erase [st.nextCid] st.nextCid, c < st.nextCid + 1
          intro c hc
          rcases List.mem_append.mp hc with hc | hc
          · exact Nat.lt_succ_of_lt (hcont _ hc)
          · simp [List.erase_cons_head] at hc
      · rw [if_neg hok]
        rw [alSet_alSet, alSet_fresh _ _ _ hfreshS]
        refine ⟨?_, ?_, ?_, ?_⟩
        · show (st.sessions ++ [_]).length + (st.sem - 1) ≤ cfg.max_sessions
          rw [List.length_append]
          simp only [List.length_singleton]
          omega
        · intro k hk
          rw [List.map_append, List.mem_append] at hk
          rcases hk with hk | hk
          · exact Nat.lt_succ_of_lt (hkeys _ hk)
          · simp only [List.map_cons, List.map_nil, List.mem_singleton] at hk
            show k < st.nextSid + 1
            omega
        · rw [List.map_append, List.nodup_append]
          simp only [List.map_cons, List.map_nil]
          exact ⟨hnodup, List.nodup_singleton _, by simpa using hfreshS⟩
        · show ∀ c ∈ st.containers ++ [st.nextCid], c < st.nextCid + 1
          intro c hc
          rcases List.mem_append.mp hc with hc | hc
          · exact Nat.lt_succ_of_lt (hcont _ hc)
          · simp only [List.mem_singleton] at hc
            omega

theorem inv_delete (cfg : ServerConfig) (sid : Nat) (st : SMState) (h : Inv cfg st) :
    Inv cfg (delete_session sid st).2 := by
  obtain ⟨hcount, hkeys, hnodup, hcont⟩ := h
  cases hget : alGet st.sessions sid with
  | none => simpa [delete_session, hget] using ⟨hcount, hkeys, hnodup, hcont⟩
  | some session =>
    have hmem := mem_keys_of_alGet_some hget
    have hsub := alPop_sublist st.sessions sid
    have hsubk := hsub.map Prod.fst
    simp only [delete_session, hget]
    refine ⟨?_, ?_, ?_, ?_⟩
    · show (alPop st.sessions sid).length + (st.sem + 1) ≤ cfg.max_sessions
      have := alPop_length st.sessions sid hmem
      omega
    · intro k hk
      exact hkeys _ (hsubk.mem hk)
    · exact hnodup.sublist hsubk
    · intro c hc
      exact hcont _ ((List.erase_sublist _ _).mem hc)

theorem inv_touch (cfg : ServerConfig) (sid : Nat) (f : Session → Session) (st : SMState)
    (h : Inv cfg st) : Inv cfg (touch_session sid f st) := by
  obtain ⟨hcount, hkeys, hnodup, hcont⟩ := h
  have hk := keys_touch sid f st
  refine ⟨?_, ?_, ?_, ?_⟩
  · have : (touch_session sid f st).sessions.length = st.sessions.length := by
      simp [touch_session]
    simp only [touch_session] at this ⊢
    simpa [this] using hcount
  · intro k hkmem
    rw [hk] at hkmem
    exact hkeys _ hkmem
  · rw [hk]
    exact hnodup
  · intro c hc
    exact hcont _ hc

theorem inv_shutdown (cfg : ServerConfig) (st : SMState) (h : Inv cfg st) :
    Inv cfg (sm_shutdown st) := by
  obtain ⟨hcount, _, _, _⟩ := h
  refine ⟨?_, ?_, ?_, ?_⟩ <;> simp [sm_shutdown]
  omega

theorem reachable_inv (cfg : ServerConfig) (st : SMState) (h : Reachable cfg st) :
    Inv cfg st := by
  induction h with
  | init => exact inv_init cfg
  | create payload outcome now st _ ih => exact inv_create cfg payload outcome now st ih
  | delete sid st _ ih => exact inv_delete cfg sid st ih
  | touch sid f st _ ih => exact inv_touch cfg sid f st ih
  | shutdown st _ ih => exact inv_shutdown cfg st ih

/-- C1: at every reachable state the session table holds at most
max_sessions entries; and a create_session call arriving when the active
count already equals max_sessions fails with NoSlotsAvailable and returns
the state unchanged — no container is started and no table entry is added. -/
theorem claim_C1_session_cap (cfg : ServerConfig) (st : SMState)
    (h : Reachable cfg st) :
    st.sessions.length ≤ cfg.max_sessions ∧
    (∀ (payload : JDict) (outcome : CreateOutcome) (now : Nat),
      st.sessions.length = cfg.max_sessions →
      create_session cfg payload outcome now st = (.error .noSlotsAvailable, st)) := by
  obtain ⟨hcount, _, _, _⟩ := reachable_inv cfg st h
  constructor
  · omega
  · intro payload outcome now hfull
    have hs : st.sem = 0 := by omega
    simp [create_session, hs]

/-- Witness for C1 at a concrete reachable state: with max_sessions = 1,
after one successful create the table is full and a further create fails
NoSlotsAvailable without changing the state. -/
theorem claim_C1_session_cap_witness :
    (create_session ⟨1, []⟩ [] (.initResponse [("status", JVal.s "ok")]) 0
        (initState ⟨1, []⟩)).2.sessions.length ≤ 1 ∧
    create_session ⟨1, []⟩ [] CreateOutcome.startFail 7
        (create_session ⟨1, []⟩ [] (.initResponse [("status", JVal.s "ok")]) 0
          (initState ⟨1, []⟩)).2 =
      (.error .noSlotsAvailable,
        (create_session ⟨1, []⟩ [] (.initResponse [("status", JVal.s "ok")]) 0
          (initState ⟨1, []⟩)).2) := by
  have h := claim_C1_session_cap ⟨1, []⟩ _
    (Reachable.create [] (.initResponse [("status", JVal.s "ok")]) 0 _ Reachable.init)
  exact ⟨h.1, h.2 [] CreateOutcome.startFail 7 (by decide)⟩

/-- Whether a create_session outcome is one of the failures that occur after
the slot has been reserved. -/
def isFailureOutcome : CreateOutcome → Bool
  | .startFail => true
  | .attachFail => true
  | .initResponse response => decide (dget? response "status" ≠ some (JVal.s "ok"))

/-- C2 counterexample: at the reachable initial state with a free slot, a
create_session whose attach step fails raises ContainerError and releases
the slot, but the started container is never stopped, so the set of running
containers differs from the one before the call — contradicting the claim
that a failed create leaves the running containers as they were. -/
theorem claim_C2_counterexample :
    (create_session ⟨1, []⟩ [] CreateOutcome.attachFail 0 (initState ⟨1, []⟩)).1
        = Except.error SMError.containerError ∧
    (create_session ⟨1, []⟩ [] CreateOutcome.attachFail 0 (initState ⟨1, []⟩)).2.containers
        ≠ (initState ⟨1, []⟩).containers :=
  ⟨rfl, by decide⟩

/-- C2 as amended: every failure of create_session after the slot
reservation raises ContainerError and restores the session table and the
slot count; the running containers are also restored when the failure is a
container-start failure or a non-ok init response (the started container is
stopped in the latter case), but an attach failure leaves the started
container running. -/
theorem claim_C2_failed_create_restores (cfg : ServerConfig) (payload : JDict)
    (outcome : CreateOutcome) (now : Nat) (st : SMState)
    (hr : Reachable cfg st) (hsem : st.sem ≠ 0)
    (hfail : isFailureOutcome outcome = true) :
    (create_session cfg payload outcome now st).1 = .error .containerError ∧
    (create_session cfg payload outcome now st).2.sessions = st.sessions ∧
    (create_session cfg payload outcome now st).2.sem = st.sem ∧
    ((outcome = .startFail ∨ ∃ r, outcome = .initResponse r) →
      (create_session cfg payload outcome now st).2.containers = st.containers) ∧
    (outcome = .attachFail →
      (create_session cfg payload outcome now st).2.containers
        = st.containers ++ [st.nextCid]) := by
  obtain ⟨_, hkeys, _, hcont⟩ := reachable_inv cfg st hr
  have hfreshS : st.nextSid ∉ st.sessions.map Prod.fst := by
    intro hmem
    exact absurd (hkeys _ hmem) (lt_irrefl _)
  have hfreshC : st.nextCid ∉ st.containers := by
    intro hmem
    exact absurd (hcont _ hmem) (lt_irrefl _)
  have hsem2 : st.sem - 1 + 1 = st.sem := by omega
  cases outcome with
  | startFail =>
    have hstep : create_session cfg payload CreateOutcome.startFail now st =
        (.error .containerError, { st with sem := st.sem - 1 + 1 }) := by
      simp [create_session, hsem]
    rw [hstep]
    refine ⟨rfl, rfl, hsem2, fun _ => rfl, ?_⟩
    intro hc
    cases hc
  | attachFail =>
    have hstep : create_session cfg payload CreateOutcome.attachFail now st =
        (.error .containerError,
          { st with sem := st.sem - 1 + 1,
                    containers := st.containers ++ [st.nextCid],
                    nextCid := st.nextCid + 1 }) := by
      simp [create_session, hsem]
    rw [hstep]
    refine ⟨rfl, rfl, hsem2, ?_, fun _ => rfl⟩
    rintro (hc | ⟨r, hc⟩) <;> cases hc
  | initResponse response =>
    have hok : dget? response "status" ≠ some (JVal.s "ok") := by
      simpa [isFailureOutcome] using hfail
    have hstep : create_session cfg payload (CreateOutcome.initResponse response) now st =
        (.error .containerError,
          { st with sem := st.sem - 1 + 1,
                    sessions := alPop (alSet st.sessions st.nextSid
                      ⟨st.nextSid, st.nextCid, dget payload "env_id" (.s ""),
                       .s "", [], "active", now, now⟩) st.nextSid,
                    containers := (st.containers ++ [st.nextCid]).erase st.nextCid,
                    nextCid := st.nextCid + 1,
                    nextSid := st.nextSid + 1 }) := by
      simp [create_session, hsem, hok]
    rw [hstep, alSet_fresh _ _ _ hfreshS, alPop_append_fresh _ _ _ hfreshS,
      List.erase_append_right _ hfreshC]
    refine ⟨rfl, rfl, hsem2, ?_, fun hc => by cases hc⟩
    intro _
    show st.containers ++ List.erase [st.nextCid] st.nextCid = st.containers
    simp [List.erase_cons_head]

/-- Witness for C2 as amended at a concrete input: a non-ok init response at
the initial state with one free slot. -/
theorem claim_C2_witness :
    (create_session ⟨1, []⟩ [] (.initResponse [("status", JVal.s "error")]) 0
        (initState ⟨1, []⟩)).1 = Except.error SMError.containerError ∧
    (create_session ⟨1, []⟩ [] (.initResponse [("status", JVal.s "error")]) 0
        (initState ⟨1, []⟩)).2.sessions = [] ∧
    (create_session ⟨1, []⟩ [] (.initResponse [("status", JVal.s "error")]) 0
        (initState ⟨1, []⟩)).2.sem = 1 ∧
    (create_session ⟨1, []⟩ [] (.initResponse [("status", JVal.s "error")]) 0
        (initState ⟨1, []⟩)).2.containers = [] := by
  have h := claim_C2_failed_create_restores ⟨1, []⟩ []
    (.initResponse [("status", JVal.s "error")]) 0 (initState ⟨1, []⟩)
    Reachable.init (by decide) (by decide)
  exact ⟨h.1, h.2.1, h.2.2.1, h.2.2.2.1 (Or.inr ⟨_, rfl⟩)⟩

deriving instance DecidableEq for Except

/-! ### Worker channel and batch coordinator (session_manager.py 151-165,
batcher.py) -/

/-- Outcome of the blocking channel exchange inside _send_command_sync:
either the decoded response object, or the message of the exception caught
there (write failure, read timeout, closed connection, JSON decode error). -/
inductive ChannelOutcome where
  | response (r : JDict)
  | failure (message : String)
  deriving DecidableEq

/-- SessionManager._send_command_sync (session_manager.py lines 158-165): an
exception anywhere in the write-read-decode cycle is converted into an error
envelope rather than propagated. -/
def _send_command_sync (outcome : ChannelOutcome) : JDict :=
  match outcome with
  | .response r => r
  | .failure message =>
      [("status", JVal.s "error"),
       ("message", JVal.s ("Communication error: " ++ message))]

/-- The per-request body of BatchCoordinator._drain (batcher.py lines
58-70): under the session lock, send the step command, then set
last_active_at to the current time — unconditionally — and fulfil the
future with the result envelope. -/
def process_one (session : Session) (outcome : ChannelOutcome) (now : Nat) :
    Session × JDict :=
  let result := _send_command_sync outcome
  ({ session with last_active_at := now }, result)

/-- BatchCoordinator._drain over a snapshot of the pending list: every
pending request is processed with process_one. -/
def _drain (requests : List (Session × ChannelOutcome)) (now : Nat) :
    List (Session × JDict) :=
  requests.map (fun req => process_one req.1 req.2 now)

/-- C3 counterexample: a drained step whose channel exchange fails yields an
error envelope (status "error", not ok), yet the session's last_active_at is
still updated to the drain time (here 5, while it was 0 before) —
contradicting the claim that an error envelope leaves it unchanged. -/
theorem claim_C3_counterexample :
    dget? (process_one ⟨0, 0, JVal.s "", JVal.s "", [], "active", 0, 0⟩
        (.failure "boom") 5).2 "status" = some (JVal.s "error") ∧
    (process_one ⟨0, 0, JVal.s "", JVal.s "", [], "active", 0, 0⟩
          (.failure "boom") 5).1.last_active_at ≠
      (⟨0, 0, JVal.s "", JVal.s "", [], "active", 0, 0⟩ : Session).last_active_at := by
  decide

/-- C3 as amended: for every request processed by a drain, last_active_at is
set to the drain time after every completed channel exchange — whether the
envelope reports ok or error — while all other session fields are unchanged
and the future is fulfilled with the channel envelope. -/
theorem claim_C3_last_active_updated (requests : List (Session × ChannelOutcome))
    (now : Nat) (res : Session × JDict) (hmem : res ∈ _drain requests now) :
    res.1.last_active_at = now ∧
    ∃ req ∈ requests, res.1 = { req.1 with last_active_at := now } ∧
      res.2 = _send_command_sync req.2 := by
  simp only [_drain, List.mem_map] at hmem
  obtain ⟨req, hreq, hres⟩ := hmem
  subst hres
  exact ⟨rfl, req, hreq, rfl, rfl⟩

/-- Witness for C3 as amended: a singleton drain with an ok response sets
last_active_at to the drain time. -/
theorem claim_C3_witness :
    (process_one ⟨1, 2, JVal.s "", JVal.s "", [], "active", 3, 3⟩
        (.response [("status", JVal.s "ok")]) 9).1.last_active_at = 9 := by
  have h := claim_C3_last_active_updated
    [(⟨1, 2, JVal.s "", JVal.s "", [], "active", 3, 3⟩,
      .response [("status", JVal.s "ok")])] 9
    (process_one ⟨1, 2, JVal.s "", JVal.s "", [], "active", 3, 3⟩
      (.response [("status", JVal.s "ok")]) 9)
    (by simp [_drain])
  exact h.1

/-! ### HTTP routes (routes.py) -/

/-- The StepResponse schema of models.py (session id modelled like session
ids, observation kept as the JSON value the route passes through). -/
structure StepResponse where
  session_id : Nat
  observation : JVal
  reward : ℚ
  done : Bool
  info : JDict
  deriving DecidableEq

/-- Python truthiness of a JSON value, as used by the if on done. -/
def truthy : JVal → Bool
  | .b v => v
  | .n q => decide (q ≠ 0)
  | .s v => decide (v ≠ "")
  | .null => false

/-- Python float() applied to a JSON value: numbers pass through, booleans
coerce to 0 or 1, anything else raises. (float() would also parse numeric
strings; worker rewards are numbers, and a string reward is modelled as
raising as well.) -/
def pyFloat : JVal → Option ℚ
  | .n q => some q
  | .b true => some 1
  | .b false => some 0
  | _ => none

/-- Reward selection of the step route (routes.py line 82): accept both
reward and score for backward compatibility, preferring reward. -/
def routeReward (result : JDict) : JVal :=
  dget result "reward" (dget result "score" (.n 0))

/-- The step_session route (routes.py lines 63-91) after the session lookup,
as a function of the stored session and the batcher result envelope: rejects
done sessions with SessionAlreadyDone, rejects non-ok envelopes with
ContainerError, marks the session done when the response says so, and builds
the StepResponse; a float() failure on the reward raises and maps to the
generic internal error handler. -/
def step_session (session : Session) (result : JDict) :
    Except SMError StepResponse × Session :=
  if session.status = "done" then (.error .sessionAlreadyDone, session)
  else if dget? result "status" ≠ some (JVal.s "ok") then
    (.error .containerError, session)
  else
    let done := truthy (dget result "done" (.b false))
    let session2 := if done then { session with status := "done" } else session
    match pyFloat (routeReward result) with
    | none => (.error .internalError, session2)
    | some reward =>
        (.ok ⟨session.session_id, dget result "observation" (.s ""), reward, done,
          _extract_info result⟩, session2)

/-- C6: a session in status done never gets an ok step response: the step
route fails SessionAlreadyDone — mapped to error code SESSION_ALREADY_DONE
with HTTP 409 — and the stored session (observation, info, status) is left
unchanged by the rejected step. -/
theorem claim_C6_done_rejects_step (session : Session) (result : JDict)
    (h : session.status = "done") :
    step_session session result = (.error .sessionAlreadyDone, session) ∧
    error_code .sessionAlreadyDone = "SESSION_ALREADY_DONE" ∧
    http_status .sessionAlreadyDone = 409 := by
  refine ⟨?_, rfl, rfl⟩
  simp [step_session, h]

/-- Witness for C6: a concrete done session rejects a step even though the
worker envelope reports ok, and is returned unchanged. -/
theorem claim_C6_witness :
    step_session ⟨4, 0, JVal.s "e", JVal.s "obs", [("k", JVal.n 1)], "done", 0, 0⟩
        [("status", JVal.s "ok"), ("done", JVal.b false)] =
      (.error .sessionAlreadyDone,
        ⟨4, 0, JVal.s "e", JVal.s "obs", [("k", JVal.n 1)], "done", 0, 0⟩) :=
  (claim_C6_done_rejects_step _ _ rfl).1

/-- C9: on an ok worker step response, the route fills missing fields with
defaults: a present reward key always wins over score; with no reward key
the reward is taken from score; with neither it is 0; a missing done key
gives done = false; and a missing observation key gives the empty string. -/
theorem claim_C9_step_defaults (session : Session) (result : JDict)
    (hactive : session.status ≠ "done")
    (hok : dget? result "status" = some (JVal.s "ok")) :
    (∀ v, dget? result "reward" = some v → routeReward result = v) ∧
    (dget? result "reward" = none →
      ∀ v, dget? result "score" = some v → routeReward result = v) ∧
    (dget? result "reward" = none → dget? result "score" = none →
      routeReward result = JVal.n 0) ∧
    (∀ q : ℚ, pyFloat (routeReward result) = some q →
      (step_session session result).1 =
        .ok ⟨session.session_id, dget result "observation" (JVal.s ""), q,
          truthy (dget result "done" (JVal.b false)), _extract_info result⟩) ∧
    (dget? result "done" = none → truthy (dget result "done" (JVal.b false)) = false) ∧
    (dget? result "observation" = none →
      dget result "observation" (JVal.s "") = JVal.s "") := by
  refine ⟨?_, ?_, ?_, ?_, ?_, ?_⟩
  · intro v hv
    simp [routeReward, dget, hv]
  · intro hr v hv
    simp [routeReward, dget, hr, hv]
  · intro hr hs
    simp [routeReward, dget, hr, hs]
  · intro q hq
    have hnot : ¬ (dget? result "status" ≠ some (JVal.s "ok")) := by simp [hok]
    simp [step_session, hactive, hnot, hq]
  · intro hd
    simp [dget, hd, truthy]
  · intro ho
    simp [dget, ho]

/-- Witness for C9: a response carrying both reward and score uses the
reward value, and the missing done and observation keys default. -/
theorem claim_C9_witness :
    routeReward [("status", JVal.s "ok"), ("reward", JVal.n 2), ("score", JVal.n 7)]
        = JVal.n 2 ∧
    (step_session ⟨1, 0, JVal.s "", JVal.s "", [], "active", 0, 0⟩
        [("status", JVal.s "ok"), ("reward", JVal.n 2), ("score", JVal.n 7)]).1 =
      .ok ⟨1, JVal.s "", 2, false, []⟩ := by
  have h := claim_C9_step_defaults ⟨1, 0, JVal.s "", JVal.s "", [], "active", 0, 0⟩
    [("status", JVal.s "ok"), ("reward", JVal.n 2), ("score", JVal.n 7)]
    (by decide) (by decide)
  refine ⟨h.1 (JVal.n 2) (by decide), ?_⟩
  rw [h.2.2.2.1 2 (by decide)]
  simp [dget, dget?, alGet, truthy, _extract_info, standard_keys]

/-- Default hook implementation Hooks.on_create_session (app.py lines
29-38): pass env_id (empty string for null) and params through unchanged. -/
def on_create_session (env_id : Option String) (params : JDict) : JDict :=
  dictUpdate [("env_id", JVal.s (pyOrStr env_id ""))] params

/-- Init-payload synthesis of the create_session route (routes.py lines
23-43): with hooks configured the hook result is used verbatim; with no
hooks, a null env_id is replaced by a random element of config.env_files
(the uniform choice is modelled by the picked element) when that list is
non-empty, and the payload is env_id merged with the request params (params
win on key clashes). -/
def route_init_payload (env_files : List String)
    (hooks : Option (Option String → JDict → JDict))
    (picked : String) (env_id : Option String) (params : JDict) : JDict :=
  match hooks with
  | some hook => hook env_id params
  | none =>
      let env_id2 := if env_id = none ∧ env_files ≠ [] then some picked else env_id
      dictUpdate [("env_id", JVal.s (pyOrStr env_id2 ""))] params

theorem pyOrStr_some_empty (p : String) : pyOrStr (some p) "" = p := by
  by_cases h : p = "" <;> simp [pyOrStr, h]

/-- C7 counterexample: with a null request env_id and non-empty env_files,
a params mapping that itself carries an env_id key overrides the randomly
picked element in the two-splat merge, so the resulting payload's env_id is
not an element of env_files. -/
theorem claim_C7_counterexample :
    dget? (route_init_payload ["env-a"] none "env-a" none
        [("env_id", JVal.s "override")]) "env_id" = some (JVal.s "override") ∧
    ¬ ("override" ∈ ["env-a"]) := by
  constructor
  · rfl
  · decide

/-- C7 as amended: with no hooks configured, a null env_id and non-empty
env_files, the route picks an element of env_files and the init payload maps
env_id to exactly that element and carries every params entry unchanged —
provided params does not itself contain an env_id key (such a key would
override the picked element in the merge). -/
theorem claim_C7_default_env_choice (env_files : List String) (picked : String)
    (params : JDict) (hne : env_files ≠ []) (hpick : picked ∈ env_files)
    (hnod : (params.map Prod.fst).Nodup)
    (hno : dget? params "env_id" = none) :
    dget? (route_init_payload env_files none picked none params) "env_id"
        = some (JVal.s picked) ∧
    JVal.s picked ∈ env_files.map JVal.s ∧
    (∀ k v, dget? params k = some v →
      dget? (route_init_payload env_files none picked none params) k = some v) := by
  have hpay : route_init_payload env_files none picked none params
      = dictUpdate [("env_id", JVal.s picked)] params := by
    simp [route_init_payload, hne, pyOrStr_some_empty]
  refine ⟨?_, ?_, ?_⟩
  · rw [hpay]
    show alGet (dictUpdate [("env_id", JVal.s picked)] params) "env_id" = some (JVal.s picked)
    rw [alGet_none_dictUpdate _ _ _ hno]
    rfl
  · exact List.mem_map.mpr ⟨picked, hpick, rfl⟩
  · intro k v hv
    rw [hpay]
    exact alGet_some_dictUpdate _ _ _ _ hnod hv

/-- Witness for C7 as amended at a concrete input. -/
theorem claim_C7_witness :
    dget? (route_init_payload ["env-a", "env-b"] none "env-b" none
        [("x", JVal.n 1)]) "env_id" = some (JVal.s "env-b") ∧
    dget? (route_init_payload ["env-a", "env-b"] none "env-b" none
        [("x", JVal.n 1)]) "x" = some (JVal.n 1) := by
  have h := claim_C7_default_env_choice ["env-a", "env-b"] "env-b" [("x", JVal.n 1)]
    (by decide) (by decide) (by decide) (by decide)
  exact ⟨h.1, h.2.2 "x" (JVal.n 1) (by decide)⟩

/-- C8: the info mapping consists of exactly the worker-response pairs whose
key is outside the standard set, with values unchanged; and both the create
path (the stored session.info) and the step path (StepResponse.info) are
built by that rule from their respective worker responses. -/
theorem claim_C8_info_filter (response : JDict) (k : String) :
    (dget? (_extract_info response) k =
      if k ∈ standard_keys then none else dget? response k) ∧
    (∀ (cfg : ServerConfig) (payload : JDict) (now : Nat) (st : SMState)
        (sess : Session) (st2 : SMState),
      create_session cfg payload (.initResponse response) now st = (.ok sess, st2) →
      sess.info = _extract_info response) ∧
    (∀ (session : Session) (resp2 : StepResponse) (sess2 : Session),
      step_session session response = (.ok resp2, sess2) →
      resp2.info = _extract_info response) := by
  refine ⟨alGet_extract_info response k, ?_, ?_⟩
  · intro cfg payload now st sess st2 h
    by_cases hsem : st.sem = 0
    · simp [create_session, hsem] at h
    · by_cases hok : dget? response "status" ≠ some (JVal.s "ok")
      · simp [create_session, hsem, hok] at h
      · simp only [create_session, if_neg hsem] at h
        rw [if_neg hok] at h
        have := congrArg Prod.fst h
        simp only at this
        cases this
        rfl
  · intro session resp2 sess2 h
    by_cases hdone : session.status = "done"
    · simp [step_session, hdone] at h
    · by_cases hok : dget? response "status" ≠ some (JVal.s "ok")
      · simp [step_session, hdone, hok] at h
      · cases hq : pyFloat (routeReward response) with
        | none => simp [step_session, hdone, hok, hq] at h
        | some q =>
          simp only [step_session, if_neg hdone, if_neg hok, hq] at h
          have := congrArg Prod.fst h
          simp only at this
          cases this
          rfl

/-- Witness for C8 at a concrete response: the non-standard key survives
into the info of both a successful create and a successful step, while the
standard keys are stripped. -/
theorem claim_C8_witness :
    dget? (_extract_info [("status", JVal.s "ok"), ("extra", JVal.n 3)]) "extra"
        = some (JVal.n 3) ∧
    (⟨0, 0, JVal.s "", JVal.s "", [("extra", JVal.n 3)], "active", 0, 0⟩ : Session).info
        = _extract_info [("status", JVal.s "ok"), ("extra", JVal.n 3)] ∧
    (⟨1, JVal.s "", 0, false, [("extra", JVal.n 3)]⟩ : StepResponse).info
        = _extract_info [("status", JVal.s "ok"), ("extra", JVal.n 3)] := by
  have h := claim_C8_info_filter [("status", JVal.s "ok"), ("extra", JVal.n 3)] "extra"
  refine ⟨?_, ?_, ?_⟩
  · rw [h.1]
    decide
  · exact h.2.1 ⟨1, []⟩ [] 0 (initState ⟨1, []⟩)
      ⟨0, 0, JVal.s "", JVal.s "", [("extra", JVal.n 3)], "active", 0, 0⟩
      ⟨[(0, ⟨0, 0, JVal.s "", JVal.s "", [("extra", JVal.n 3)], "active", 0, 0⟩)],
        0, [0], 1, 1⟩ (by decide)
  · exact h.2.2 ⟨1, 0, JVal.s "", JVal.s "", [], "active", 0, 0⟩
      ⟨1, JVal.s "", 0, false, [("extra", JVal.n 3)]⟩
      ⟨1, 0, JVal.s "", JVal.s "", [], "active", 0, 0⟩ (by decide)

/-! ### Properties of the stream decoder -/

/-- Declared payload size of the frame starting at the head of the buffer
(big-endian header bytes 4 to 7); meaningful when at least 8 bytes are
present. -/
def declaredSize (l : List Nat) : Nat :=
  frameSize (l.getD 4 0) (l.getD 5 0) (l.getD 6 0) (l.getD 7 0)

theorem drop_cons8 (a0 a1 a2 a3 a4 a5 a6 a7 : Nat) (r : List Nat) (n : Nat) :
    (a0 :: a1 :: a2 :: a3 :: a4 :: a5 :: a6 :: a7 :: r).drop (n + 8) = r.drop n := rfl

theorem decodeAux_consumed (fuel : Nat) : ∀ (l : List Nat), l.length ≤ fuel →
    (decodeAux fuel l).2 ≤ l.length ∧
    (l.drop (decodeAux fuel l).2 = [] ∨
     (l.drop (decodeAux fuel l).2).length < 8 ∨
     (l.drop (decodeAux fuel l).2).length <
        8 + declaredSize (l.drop (decodeAux fuel l).2)) := by
  induction fuel with
  | zero =>
    intro l h
    have : l = [] := List.eq_nil_of_length_eq_zero (Nat.le_zero.mp h)
    subst this
    rw [decodeAux_nil]
    exact ⟨Nat.zero_le _, Or.inl rfl⟩
  | succ fuel ih =>
    intro l hlen
    by_cases hs : l.length < 8
    · rw [decodeAux_short _ _ hs]
      exact ⟨Nat.zero_le _, Or.inr (Or.inl (by simpa using hs))⟩
    · rcases l with _ | ⟨a0, _ | ⟨a1, _ | ⟨a2, _ | ⟨a3, _ | ⟨a4, _ | ⟨a5, _ | ⟨a6, _ | ⟨a7, r⟩⟩⟩⟩⟩⟩⟩⟩
      all_goals try (exfalso; simp at hs; done)
      simp only [List.length_cons] at hlen
      rw [decodeAux_cons]
      by_cases hv : a0 = 0 ∨ a0 = 1 ∨ a0 = 2
      · rw [if_pos hv]
        by_cases hc : r.length < frameSize a4 a5 a6 a7
        · rw [if_pos hc]
          refine ⟨Nat.zero_le _, Or.inr (Or.inr ?_)⟩
          show (a0 :: a1 :: a2 :: a3 :: a4 :: a5 :: a6 :: a7 :: r).length <
            8 + declaredSize (a0 :: a1 :: a2 :: a3 :: a4 :: a5 :: a6 :: a7 :: r)
          have hd : declaredSize (a0 :: a1 :: a2 :: a3 :: a4 :: a5 :: a6 :: a7 :: r)
              = frameSize a4 a5 a6 a7 := rfl
          rw [hd]
          simp only [List.length_cons]
          omega
        · rw [if_neg hc]
          have hdroplen : (r.drop (frameSize a4 a5 a6 a7)).length ≤ fuel := by
            simp only [List.length_drop]
            omega
          obtain ⟨ih1, ih2⟩ := ih (r.drop (frameSize a4 a5 a6 a7)) hdroplen
          have heq : 8 + frameSize a4 a5 a6 a7 +
                (decodeAux fuel (r.drop (frameSize a4 a5 a6 a7))).2 =
              ((decodeAux fuel (r.drop (frameSize a4 a5 a6 a7))).2 +
                frameSize a4 a5 a6 a7) + 8 := by
            omega
          have hdrop : (a0 :: a1 :: a2 :: a3 :: a4 :: a5 :: a6 :: a7 :: r).drop
                (8 + frameSize a4 a5 a6 a7 +
                  (decodeAux fuel (r.drop (frameSize a4 a5 a6 a7))).2) =
              (r.drop (frameSize a4 a5 a6 a7)).drop
                (decodeAux fuel (r.drop (frameSize a4 a5 a6 a7))).2 := by
            rw [heq, drop_cons8, List.drop_drop,
              Nat.add_comm (decodeAux fuel (r.drop (frameSize a4 a5 a6 a7))).2
                (frameSize a4 a5 a6 a7)]
          constructor
          · show 8 + frameSize a4 a5 a6 a7 +
                (decodeAux fuel (r.drop (frameSize a4 a5 a6 a7))).2 ≤
              (a0 :: a1 :: a2 :: a3 :: a4 :: a5 :: a6 :: a7 :: r).length
            simp only [List.length_cons]
            simp only [List.length_drop] at ih1
            omega
          · show (a0 :: a1 :: a2 :: a3 :: a4 :: a5 :: a6 :: a7 :: r).drop
                  (8 + frameSize a4 a5 a6 a7 +
                    (decodeAux fuel (r.drop (frameSize a4 a5 a6 a7))).2) = [] ∨ _ ∨ _
            rw [hdrop]
            exact ih2
      · rw [if_neg hv]
        refine ⟨?_, Or.inl ?_⟩
        · show 8 + r.length ≤ (a0 :: a1 :: a2 :: a3 :: a4 :: a5 :: a6 :: a7 :: r).length
          simp only [List.length_cons]
          omega
        · show (a0 :: a1 :: a2 :: a3 :: a4 :: a5 :: a6 :: a7 :: r).drop (8 + r.length) = []
          have h8 : 8 + r.length = r.length + 8 := by omega
          rw [h8, drop_cons8, List.drop_length]

/-- C10: for every byte buffer the consumed count is at most the buffer
length, and the unconsumed suffix is empty or the prefix of a single
incomplete frame — fewer than 8 header bytes, or fewer payload bytes than
the header's declared length — so consumed never splits a complete frame
(counts are naturals, so consumed is trivially nonnegative). -/
theorem claim_C10_consumed_bounds (data : List Nat) :
    (_decode_docker_stream data).2 ≤ data.length ∧
    (data.drop (_decode_docker_stream data).2 = [] ∨
     (data.drop (_decode_docker_stream data).2).length < 8 ∨
     (data.drop (_decode_docker_stream data).2).length <
        8 + declaredSize (data.drop (_decode_docker_stream data).2)) :=
  decodeAux_consumed data.length data (le_refl _)

/-- Spec-side frame parser for C5, following the claim text: collect the
complete leading frames (kind byte, payload) while the kind byte at each
frame position is 0, 1 or 2, stopping at the first incomplete frame or
invalid kind byte; returns the frames and the unconsumed remainder. -/
def splitFrames : Nat → List Nat → List (Nat × List Nat) × List Nat
  | 0, l => ([], l)
  | fuel + 1, l =>
    if 8 ≤ l.length ∧ (l.headD 0 = 0 ∨ l.headD 0 = 1 ∨ l.headD 0 = 2) ∧
        8 + declaredSize l ≤ l.length then
      let res := splitFrames fuel (l.drop (8 + declaredSize l))
      ((l.headD 0, (l.drop 8).take (declaredSize l)) :: res.1, res.2)
    else ([], l)

theorem splitFrames_succ (fuel : Nat) (l : List Nat) :
    splitFrames (fuel + 1) l =
      if 8 ≤ l.length ∧ (l.headD 0 = 0 ∨ l.headD 0 = 1 ∨ l.headD 0 = 2) ∧
          8 + declaredSize l ≤ l.length then
        ((l.headD 0, (l.drop 8).take (declaredSize l))
            :: (splitFrames fuel (l.drop (8 + declaredSize l))).1,
          (splitFrames fuel (l.drop (8 + declaredSize l))).2)
      else ([], l) := rfl

theorem splitFrames_res_length (fuel : Nat) : ∀ (l : List Nat),
    ((splitFrames fuel l).2).length ≤ l.length := by
  induction fuel with
  | zero =>
    intro l
    simp [splitFrames]
  | succ fuel ih =>
    intro l
    by_cases hcond : 8 ≤ l.length ∧ (l.headD 0 = 0 ∨ l.headD 0 = 1 ∨ l.headD 0 = 2) ∧
        8 + declaredSize l ≤ l.length
    · rw [splitFrames_succ, if_pos hcond]
      calc ((splitFrames fuel (l.drop (8 + declaredSize l))).2).length
          ≤ (l.drop (8 + declaredSize l)).length := ih _
        _ ≤ l.length := by
            simp only [List.length_drop]
            omega
    · rw [splitFrames_succ, if_neg hcond]

/-- Fueled body of the spec-side description of the decoder contract: the
text is the concatenation of the decoded payloads of the complete leading
frames whose kind is 0 or 1 (stderr frames, kind 2, are discarded); decoding
stops at the first incomplete frame, which stays unconsumed; and when the
remainder still starts with a full header whose kind byte is invalid, the
whole remainder is appended as raw text and the buffer is fully consumed. -/
def decodeSpecAux (fuel : Nat) (l : List Nat) : List Nat × Nat :=
  let fr := splitFrames fuel l
  let txt := ((fr.1.filter (fun f => decide (f.1 = 0 ∨ f.1 = 1))).map
      (fun f => utf8Replace f.2)).flatten
  if 8 ≤ fr.2.length ∧ ¬ (fr.2.headD 0 = 0 ∨ fr.2.headD 0 = 1 ∨ fr.2.headD 0 = 2) then
    (txt ++ utf8Replace fr.2, l.length)
  else (txt, l.length - fr.2.length)

/-- The C5 contract as a function of the byte buffer alone. -/
def decodeSpecC5 (data : List Nat) : List Nat × Nat :=
  decodeSpecAux data.length data

theorem decodeAux_eq_spec (fuel : Nat) : ∀ (l : List Nat), l.length ≤ fuel →
    decodeAux fuel l = decodeSpecAux fuel l := by
  induction fuel with
  | zero =>
    intro l h
    have : l = [] := List.eq_nil_of_length_eq_zero (Nat.le_zero.mp h)
    subst this
    rfl
  | succ fuel ih =>
    intro l hlen
    by_cases hs : l.length < 8
    · have h8 : ¬ 8 ≤ l.length := by omega
      have hcond : ¬ (8 ≤ l.length ∧ (l.headD 0 = 0 ∨ l.headD 0 = 1 ∨ l.headD 0 = 2) ∧
          8 + declaredSize l ≤ l.length) := fun hx => h8 hx.1
      rw [decodeAux_short _ _ hs]
      simp only [decodeSpecAux, splitFrames_succ, if_neg hcond]
      rw [if_neg (fun hx => h8 hx.1)]
      simp
    · rcases l with _ | ⟨a0, _ | ⟨a1, _ | ⟨a2, _ | ⟨a3, _ | ⟨a4, _ | ⟨a5, _ | ⟨a6, _ | ⟨a7, r⟩⟩⟩⟩⟩⟩⟩⟩
      all_goals try (exfalso; simp at hs; done)
      simp only [List.length_cons] at hlen
      have hhead : (a0 :: a1 :: a2 :: a3 :: a4 :: a5 :: a6 :: a7 :: r).headD 0 = a0 := rfl
      have hdecl : declaredSize (a0 :: a1 :: a2 :: a3 :: a4 :: a5 :: a6 :: a7 :: r)
          = frameSize a4 a5 a6 a7 := rfl
      by_cases hv : a0 = 0 ∨ a0 = 1 ∨ a0 = 2
      · by_cases hc : r.length < frameSize a4 a5 a6 a7
        · -- kind valid but the payload is incomplete: nothing is consumed
          have hcond : ¬ (8 ≤ (a0 :: a1 :: a2 :: a3 :: a4 :: a5 :: a6 :: a7 :: r).length ∧
              ((a0 :: a1 :: a2 :: a3 :: a4 :: a5 :: a6 :: a7 :: r).headD 0 = 0 ∨
               (a0 :: a1 :: a2 :: a3 :: a4 :: a5 :: a6 :: a7 :: r).headD 0 = 1 ∨
               (a0 :: a1 :: a2 :: a3 :: a4 :: a5 :: a6 :: a7 :: r).headD 0 = 2) ∧
              8 + declaredSize (a0 :: a1 :: a2 :: a3 :: a4 :: a5 :: a6 :: a7 :: r) ≤
                (a0 :: a1 :: a2 :: a3 :: a4 :: a5 :: a6 :: a7 :: r).length) := by
            rintro ⟨-, -, h3⟩
            rw [hdecl] at h3
            simp only [List.length_cons] at h3
            omega
          rw [decodeAux_cons, if_pos hv, if_pos hc]
          simp only [decodeSpecAux, splitFrames_succ, if_neg hcond]
          rw [if_neg (by
            rintro ⟨-, hbad⟩
            rw [hhead] at hbad
            exact hbad hv)]
          simp
        · -- a complete valid frame is consumed and decoding continues
          push_neg at hc
          have hcond : 8 ≤ (a0 :: a1 :: a2 :: a3 :: a4 :: a5 :: a6 :: a7 :: r).length ∧
              ((a0 :: a1 :: a2 :: a3 :: a4 :: a5 :: a6 :: a7 :: r).headD 0 = 0 ∨
               (a0 :: a1 :: a2 :: a3 :: a4 :: a5 :: a6 :: a7 :: r).headD 0 = 1 ∨
               (a0 :: a1 :: a2 :: a3 :: a4 :: a5 :: a6 :: a7 :: r).headD 0 = 2) ∧
              8 + declaredSize (a0 :: a1 :: a2 :: a3 :: a4 :: a5 :: a6 :: a7 :: r) ≤
                (a0 :: a1 :: a2 :: a3 :: a4 :: a5 :: a6 :: a7 :: r).length := by
            refine ⟨by simp, by rw [hhead]; exact hv, ?_⟩
            rw [hdecl]
            simp only [List.length_cons]
            omega
          have hdrop8 : (a0 :: a1 :: a2 :: a3 :: a4 :: a5 :: a6 :: a7 :: r).drop
              (8 + frameSize a4 a5 a6 a7) = r.drop (frameSize a4 a5 a6 a7) := by
            have h : 8 + frameSize a4 a5 a6 a7 = frameSize a4 a5 a6 a7 + 8 := by omega
            rw [h, drop_cons8]
          have hsplit : splitFrames (fuel + 1)
                (a0 :: a1 :: a2 :: a3 :: a4 :: a5 :: a6 :: a7 :: r) =
              ((a0, r.take (frameSize a4 a5 a6 a7))
                  :: (splitFrames fuel (r.drop (frameSize a4 a5 a6 a7))).1,
                (splitFrames fuel (r.drop (frameSize a4 a5 a6 a7))).2) := by
            rw [splitFrames_succ, if_pos hcond, hdecl, hhead, hdrop8]
            rfl
          have hrest : (r.drop (frameSize a4 a5 a6 a7)).length ≤ fuel := by
            simp only [List.length_drop]
            omega
          have hreslen := splitFrames_res_length fuel (r.drop (frameSize a4 a5 a6 a7))
          simp only [List.length_drop] at hreslen
          rw [decodeAux_cons, if_pos hv, if_neg (by omega : ¬ r.length < frameSize a4 a5 a6 a7),
            ih _ hrest]
          simp only [decodeSpecAux, hsplit, List.filter_cons]
          by_cases hfb : 8 ≤ ((splitFrames fuel (r.drop (frameSize a4 a5 a6 a7))).2).length ∧
              ¬ ((splitFrames fuel (r.drop (frameSize a4 a5 a6 a7))).2.headD 0 = 0 ∨
                 (splitFrames fuel (r.drop (frameSize a4 a5 a6 a7))).2.headD 0 = 1 ∨
                 (splitFrames fuel (r.drop (frameSize a4 a5 a6 a7))).2.headD 0 = 2)
          · rw [if_pos hfb, if_pos hfb]
            simp only [Prod.mk.injEq]
            constructor
            · by_cases hk : a0 = 0 ∨ a0 = 1
              · have hkd : decide (a0 = 0 ∨ a0 = 1) = true := by simpa using hk
                rw [if_pos hkd]
                by_cases hz : 0 < frameSize a4 a5 a6 a7
                · rw [if_pos (show 0 < frameSize a4 a5 a6 a7 ∧ (a0 = 0 ∨ a0 = 1) from ⟨hz, hk⟩)]
                  simp [List.append_assoc]
                · rw [if_neg (show ¬ (0 < frameSize a4 a5 a6 a7 ∧ (a0 = 0 ∨ a0 = 1)) from
                    fun hx => hz hx.1)]
                  have hz0 : frameSize a4 a5 a6 a7 = 0 := by omega
                  simp [hz0, utf8Replace, utf8ReplaceAux]
              · have hkd : ¬ (decide (a0 = 0 ∨ a0 = 1) = true) := by simpa using hk
                rw [if_neg hkd,
                  if_neg (show ¬ (0 < frameSize a4 a5 a6 a7 ∧ (a0 = 0 ∨ a0 = 1)) from
                    fun hx => hk hx.2)]
                simp
            · simp only [List.length_cons, List.length_drop]
              omega
          · rw [if_neg hfb, if_neg hfb]
            simp only [Prod.mk.injEq]
            constructor
            · by_cases hk : a0 = 0 ∨ a0 = 1
              · have hkd : decide (a0 = 0 ∨ a0 = 1) = true := by simpa using hk
                rw [if_pos hkd]
                by_cases hz : 0 < frameSize a4 a5 a6 a7
                · rw [if_pos (show 0 < frameSize a4 a5 a6 a7 ∧ (a0 = 0 ∨ a0 = 1) from ⟨hz, hk⟩)]
                  simp
                · rw [if_neg (show ¬ (0 < frameSize a4 a5 a6 a7 ∧ (a0 = 0 ∨ a0 = 1)) from
                    fun hx => hz hx.1)]
                  have hz0 : frameSize a4 a5 a6 a7 = 0 := by omega
                  simp [hz0, utf8Replace, utf8ReplaceAux]
              · have hkd : ¬ (decide (a0 = 0 ∨ a0 = 1) = true) := by simpa using hk
                rw [if_neg hkd,
                  if_neg (show ¬ (0 < frameSize a4 a5 a6 a7 ∧ (a0 = 0 ∨ a0 = 1)) from
                    fun hx => hk hx.2)]
                simp
            · simp only [List.length_cons, List.length_drop]
              omega
      · -- invalid kind byte with a full header: raw-text fallback
        have hcond : ¬ (8 ≤ (a0 :: a1 :: a2 :: a3 :: a4 :: a5 :: a6 :: a7 :: r).length ∧
            ((a0 :: a1 :: a2 :: a3 :: a4 :: a5 :: a6 :: a7 :: r).headD 0 = 0 ∨
             (a0 :: a1 :: a2 :: a3 :: a4 :: a5 :: a6 :: a7 :: r).headD 0 = 1 ∨
             (a0 :: a1 :: a2 :: a3 :: a4 :: a5 :: a6 :: a7 :: r).headD 0 = 2) ∧
            8 + declaredSize (a0 :: a1 :: a2 :: a3 :: a4 :: a5 :: a6 :: a7 :: r) ≤
              (a0 :: a1 :: a2 :: a3 :: a4 :: a5 :: a6 :: a7 :: r).length) := by
          rintro ⟨-, h2, -⟩
          rw [hhead] at h2
          exact hv h2
        rw [decodeAux_cons, if_neg hv]
        simp only [decodeSpecAux, splitFrames_succ, if_neg hcond]
        rw [if_pos (show
            8 ≤ (a0 :: a1 :: a2 :: a3 :: a4 :: a5 :: a6 :: a7 :: r).length ∧
            ¬ ((a0 :: a1 :: a2 :: a3 :: a4 :: a5 :: a6 :: a7 :: r).headD 0 = 0 ∨
               (a0 :: a1 :: a2 :: a3 :: a4 :: a5 :: a6 :: a7 :: r).headD 0 = 1 ∨
               (a0 :: a1 :: a2 :: a3 :: a4 :: a5 :: a6 :: a7 :: r).headD 0 = 2)
          from ⟨by simp, by rw [hhead]; exact hv⟩)]
        simp only [Prod.mk.injEq, List.length_cons]
        constructor
        · simp
        · omega

/-- C5: the decoder implements exactly the contract description — decoded
text is the concatenation of the payloads of the complete leading frames
whose kind byte is 0 or 1, stderr payloads are discarded, decoding stops at
the first incomplete frame leaving it unconsumed, and a frame position whose
byte is not 0, 1 or 2 turns the entire remainder into raw text with the
whole buffer consumed. -/
theorem claim_C5_decoder_contract (data : List Nat) :
    _decode_docker_stream data = decodeSpecC5 data :=
  decodeAux_eq_spec data.length data (le_refl _)

theorem framesOkAux_nil (fuel : Nat) : framesOkAux fuel [] = true := by
  cases fuel <;> rfl

theorem framesOkAux_short (fuel : Nat) (l : List Nat) (h : l.length < 8) :
    framesOkAux fuel l = true := by
  cases fuel with
  | zero => rfl
  | succ f =>
    rcases l with _ | ⟨a0, _ | ⟨a1, _ | ⟨a2, _ | ⟨a3, _ | ⟨a4, _ | ⟨a5, _ | ⟨a6, _ | ⟨a7, r⟩⟩⟩⟩⟩⟩⟩⟩
    all_goals first | rfl | (simp at h; omega)

theorem framesOkAux_cons (fuel a0 a1 a2 a3 a4 a5 a6 a7 : Nat) (r : List Nat) :
    framesOkAux (fuel + 1) (a0 :: a1 :: a2 :: a3 :: a4 :: a5 :: a6 :: a7 :: r) =
      (decide (a0 = 0 ∨ a0 = 1 ∨ a0 = 2) &&
        (if r.length < frameSize a4 a5 a6 a7 then true
         else framesOkAux fuel (r.drop (frameSize a4 a5 a6 a7)))) := rfl

theorem framesOkAux_fuel (f1 : Nat) : ∀ (f2 : Nat) (l : List Nat),
    l.length ≤ f1 → l.length ≤ f2 → framesOkAux f1 l = framesOkAux f2 l := by
  induction f1 with
  | zero =>
    intro f2 l h1 _
    have : l = [] := List.eq_nil_of_length_eq_zero (Nat.le_zero.mp h1)
    subst this
    rw [framesOkAux_nil, framesOkAux_nil]
  | succ f1 ih =>
    intro f2 l h1 h2
    by_cases hs : l.length < 8
    · rw [framesOkAux_short _ _ hs, framesOkAux_short _ _ hs]
    · rcases l with _ | ⟨a0, _ | ⟨a1, _ | ⟨a2, _ | ⟨a3, _ | ⟨a4, _ | ⟨a5, _ | ⟨a6, _ | ⟨a7, r⟩⟩⟩⟩⟩⟩⟩⟩
      all_goals try (exfalso; simp at hs; done)
      simp only [List.length_cons] at h1 h2
      cases f2 with
      | zero => omega
      | succ f2 =>
        rw [framesOkAux_cons, framesOkAux_cons]
        by_cases hc : r.length < frameSize a4 a5 a6 a7
        · rw [if_pos hc, if_pos hc]
        · rw [if_neg hc, if_neg hc,
            ih f2 (r.drop (frameSize a4 a5 a6 a7))
              (by simp only [List.length_drop]; omega)
              (by simp only [List.length_drop]; omega)]

/-- Step equation of framesOk on a buffer with a full 8-byte header. -/
theorem framesOk_cons (a0 a1 a2 a3 a4 a5 a6 a7 : Nat) (r : List Nat) :
    framesOk (a0 :: a1 :: a2 :: a3 :: a4 :: a5 :: a6 :: a7 :: r) =
      (decide (a0 = 0 ∨ a0 = 1 ∨ a0 = 2) &&
        (if r.length < frameSize a4 a5 a6 a7 then true
         else framesOk (r.drop (frameSize a4 a5 a6 a7)))) := by
  show framesOkAux (a0 :: a1 :: a2 :: a3 :: a4 :: a5 :: a6 :: a7 :: r).length _ = _
  rw [framesOkAux_fuel ((a0 :: a1 :: a2 :: a3 :: a4 :: a5 :: a6 :: a7 :: r).length)
      (r.length + 8) _ (le_refl _) (by simp only [List.length_cons]; omega),
    show r.length + 8 = (r.length + 7) + 1 from rfl, framesOkAux_cons]
  by_cases hc : r.length < frameSize a4 a5 a6 a7
  · rw [if_pos hc, if_pos hc]
  · rw [if_neg hc, if_neg hc,
      framesOkAux_fuel (r.length + 7) ((r.drop (frameSize a4 a5 a6 a7)).length) _
        (by simp only [List.length_drop]; omega) (le_refl _)]
    rfl

/-- Step equation of the decoder wrapper on a buffer with a full header. -/
theorem dds_cons (a0 a1 a2 a3 a4 a5 a6 a7 : Nat) (r : List Nat) :
    _decode_docker_stream (a0 :: a1 :: a2 :: a3 :: a4 :: a5 :: a6 :: a7 :: r) =
      if a0 = 0 ∨ a0 = 1 ∨ a0 = 2 then
        if r.length < frameSize a4 a5 a6 a7 then ([], 0)
        else
          ((if 0 < frameSize a4 a5 a6 a7 ∧ (a0 = 0 ∨ a0 = 1) then
              utf8Replace (r.take (frameSize a4 a5 a6 a7)) else []) ++
            (_decode_docker_stream (r.drop (frameSize a4 a5 a6 a7))).1,
           8 + frameSize a4 a5 a6 a7 +
            (_decode_docker_stream (r.drop (frameSize a4 a5 a6 a7))).2)
      else
        (utf8Replace (a0 :: a1 :: a2 :: a3 :: a4 :: a5 :: a6 :: a7 :: r), 8 + r.length) := by
  show decodeAux (a0 :: a1 :: a2 :: a3 :: a4 :: a5 :: a6 :: a7 :: r).length _ = _
  rw [decodeAux_fuel ((a0 :: a1 :: a2 :: a3 :: a4 :: a5 :: a6 :: a7 :: r).length)
      (r.length + 8) _ (le_refl _) (by simp only [List.length_cons]; omega),
    show r.length + 8 = (r.length + 7) + 1 from rfl, decodeAux_cons]
  by_cases hv : a0 = 0 ∨ a0 = 1 ∨ a0 = 2
  · rw [if_pos hv, if_pos hv]
    by_cases hc : r.length < frameSize a4 a5 a6 a7
    · rw [if_pos hc, if_pos hc]
    · rw [if_neg hc, if_neg hc,
        decodeAux_fuel (r.length + 7) ((r.drop (frameSize a4 a5 a6 a7)).length) _
          (by simp only [List.length_drop]; omega) (le_refl _)]
      rfl
  · rw [if_neg hv, if_neg hv]

theorem dds_short (l : List Nat) (h : l.length < 8) :
    _decode_docker_stream l = ([], 0) :=
  decodeAux_short l.length l h

/-- Split composition of decoding, under the hypothesis that no frame
position carries an invalid kind byte (no raw-text fallback fires). -/
theorem dds_split (fuel : Nat) : ∀ (b1 b2 : List Nat), b1.length ≤ fuel →
    framesOk (b1 ++ b2) = true →
    (_decode_docker_stream (b1 ++ b2)).1 =
      (_decode_docker_stream b1).1 ++
        (_decode_docker_stream (b1.drop (_decode_docker_stream b1).2 ++ b2)).1 := by
  induction fuel with
  | zero =>
    intro b1 b2 h1 _
    have : b1 = [] := List.eq_nil_of_length_eq_zero (Nat.le_zero.mp h1)
    subst this
    rw [dds_short [] (by simp)]
    simp
  | succ fuel ih =>
    intro b1 b2 hlen hfo
    by_cases hs : b1.length < 8
    · rw [dds_short b1 hs]
      simp
    · rcases b1 with _ | ⟨a0, _ | ⟨a1, _ | ⟨a2, _ | ⟨a3, _ | ⟨a4, _ | ⟨a5, _ | ⟨a6, _ | ⟨a7, r⟩⟩⟩⟩⟩⟩⟩⟩
      all_goals try (exfalso; simp at hs; done)
      simp only [List.length_cons] at hlen
      simp only [List.cons_append] at hfo ⊢
      rw [framesOk_cons] at hfo
      rw [Bool.and_eq_true] at hfo
      have hv : a0 = 0 ∨ a0 = 1 ∨ a0 = 2 := by
        have := hfo.1
        simpa using this
      by_cases hc : r.length < frameSize a4 a5 a6 a7
      · -- frame incomplete in b1: nothing consumed, the tail call sees the
        -- whole buffer again
        rw [dds_cons a0 a1 a2 a3 a4 a5 a6 a7 r, if_pos hv, if_pos hc]
        simp only [List.nil_append, List.drop_zero, List.cons_append]
      · -- frame complete in b1, hence also in the combined buffer
        have hc2 : ¬ (r ++ b2).length < frameSize a4 a5 a6 a7 := by
          simp only [List.length_append]
          omega
        have htake : (r ++ b2).take (frameSize a4 a5 a6 a7)
            = r.take (frameSize a4 a5 a6 a7) :=
          List.take_append_of_le_length (by omega)
        have hdrop : (r ++ b2).drop (frameSize a4 a5 a6 a7)
            = r.drop (frameSize a4 a5 a6 a7) ++ b2 :=
          List.drop_append_of_le_length (by omega)
        have hfo2 : framesOk (r.drop (frameSize a4 a5 a6 a7) ++ b2) = true := by
          have := hfo.2
          rw [if_neg hc2, hdrop] at this
          exact this
        have hrest : (r.drop (frameSize a4 a5 a6 a7)).length ≤ fuel := by
          simp only [List.length_drop]
          omega
        have hih := ih (r.drop (frameSize a4 a5 a6 a7)) b2 hrest hfo2
        rw [dds_cons a0 a1 a2 a3 a4 a5 a6 a7 (r ++ b2), if_pos hv, if_neg hc2,
          dds_cons a0 a1 a2 a3 a4 a5 a6 a7 r, if_pos hv, if_neg hc,
          htake, hdrop]
        have hdropall : (a0 :: a1 :: a2 :: a3 :: a4 :: a5 :: a6 :: a7 :: r).drop
              (8 + frameSize a4 a5 a6 a7 +
                (_decode_docker_stream (r.drop (frameSize a4 a5 a6 a7))).2) =
            (r.drop (frameSize a4 a5 a6 a7)).drop
              (_decode_docker_stream (r.drop (frameSize a4 a5 a6 a7))).2 := by
          rw [show 8 + frameSize a4 a5 a6 a7 +
                (_decode_docker_stream (r.drop (frameSize a4 a5 a6 a7))).2 =
              ((_decode_docker_stream (r.drop (frameSize a4 a5 a6 a7))).2 +
                frameSize a4 a5 a6 a7) + 8 from by omega,
            drop_cons8, List.drop_drop,
            Nat.add_comm (_decode_docker_stream (r.drop (frameSize a4 a5 a6 a7))).2
              (frameSize a4 a5 a6 a7)]
        rw [hdropall, hih, List.append_assoc]

/-- C4 counterexample: the split property fails when the raw-text fallback
splits a multi-byte UTF-8 character. The buffer starts with an invalid kind
byte 3 and ends with the two-byte character 0xC3 0xA9; decoding the first
nine bytes alone replaces the dangling lead byte 0xC3 with U+FFFD and
consumes everything, so feeding the final byte 0xA9 afterwards can never
produce the é that decoding the whole buffer at once yields. -/
theorem claim_C4_counterexample :
    ¬ ((_decode_docker_stream [3, 0, 0, 0, 0, 0, 0, 0, 0xC3]).1 ++
        (_decode_docker_stream
          ([3, 0, 0, 0, 0, 0, 0, 0, 0xC3].drop
              (_decode_docker_stream [3, 0, 0, 0, 0, 0, 0, 0, 0xC3]).2 ++ [0xA9])).1 =
      (_decode_docker_stream ([3, 0, 0, 0, 0, 0, 0, 0, 0xC3] ++ [0xA9])).1) := by
  decide

/-- C4 as amended: frame decoding is a pure function of the buffer (the
embedding makes this immediate), and it composes over splits whenever no
frame position of the combined buffer carries an invalid kind byte, i.e. the
raw-text fallback never fires: decoding b1, carrying the unconsumed residue,
appending b2 and decoding again yields the same concatenated text as
decoding b1 ++ b2 at once. When the fallback fires, a multi-byte UTF-8
character split across the two calls decodes to replacement characters
instead, and composition can fail. -/
theorem claim_C4_split_composition (b1 b2 : List Nat)
    (hfo : framesOk (b1 ++ b2) = true) :
    (_decode_docker_stream (b1 ++ b2)).1 =
      (_decode_docker_stream b1).1 ++
        (_decode_docker_stream (b1.drop (_decode_docker_stream b1).2 ++ b2)).1 :=
  dds_split b1.length b1 b2 (le_refl _) hfo

/-- Witness for C4 as amended: a stdout frame of size two split one byte
before its end decodes to the same text as the whole buffer at once. -/
theorem claim_C4_witness :
    framesOk ([1, 0, 0, 0, 0, 0, 0, 2, 97] ++ [98]) = true ∧
    (_decode_docker_stream ([1, 0, 0, 0, 0, 0, 0, 2, 97] ++ [98])).1 =
      (_decode_docker_stream [1, 0, 0, 0, 0, 0, 0, 2, 97]).1 ++
        (_decode_docker_stream
          ([1, 0, 0, 0, 0, 0, 0, 2, 97].drop
              (_decode_docker_stream [1, 0, 0, 0, 0, 0, 0, 2, 97]).2 ++ [98])).1 :=
  ⟨by decide, claim_C4_split_composition [1, 0, 0, 0, 0, 0, 0, 2, 97] [98] (by decide)⟩

end DockerGym
